import Mathlib

/-
Verification of the length-prefixed chat relay (Go sources: server in
src/unnamed/part_000, interactive client in src/client.go).

Modelling conventions:
- Byte strings (Go []byte and string values) are `List Nat`; every literal
  used in witnesses is ASCII, written as its byte values.
- Machine integers are `Nat` with explicit `% 4294967296` (2^32) where the
  Go code uses uint32.
- Fallible operations return `Option`; the per-connection read loop is a
  step function on the remaining input stream.
-/

namespace GoChat

/-- The constant maxMessageSize = 1024 * 4 shared by server and client. -/
def maxMessageSize : Nat := 1024 * 4

/-- Big-endian 4-byte encoding of a uint32, as produced by
binary.Write(buf, binary.BigEndian, msgLen).  16777216 = 2^24,
65536 = 2^16. -/
def u32be (n : Nat) : List Nat :=
  [n / 16777216 % 256, n / 65536 % 256, n / 256 % 256, n % 256]

/-- Big-endian decoding of a 4-byte buffer into a uint32, as performed by
binary.Read(bytes.NewReader(lenBuf), binary.BigEndian, and msgLen). -/
def decodeHeader (l : List Nat) : Nat :=
  l.foldl (fun acc b => acc * 256 + b) 0

/-- ASCII whitespace bytes removed by strings.TrimSpace: tab 9, LF 10,
VT 11, FF 12, CR 13, space 32.  (TrimSpace also strips multi-byte Unicode
whitespace; all payloads considered here are ASCII, where this byte-level
trim coincides with it.) -/
def isSpaceByte (b : Nat) : Bool :=
  b = 9 || b = 10 || b = 11 || b = 12 || b = 13 || b = 32

/-- strings.TrimSpace on a byte string: drop whitespace bytes from both
ends. -/
def trimSpace (s : List Nat) : List Nat :=
  ((s.dropWhile isSpaceByte).reverse.dropWhile isSpaceByte).reverse

/-- client.msg (part_000 lines 94-130) and encodeAndSend (client.go lines
22-58): take the payload bytes, let msgLen be their count as a uint32;
if msgLen is 0, send nothing; if msgLen exceeds maxMessageSize, send
nothing; otherwise the bytes handed to conn.Write are the 4-byte
big-endian length followed by the raw payload.  `none` means no frame is
written to the transport. -/
def clientMsg (msg : List Nat) : Option (List Nat) :=
  let msgLen := msg.length % 4294967296
  if msgLen = 0 then none
  else if maxMessageSize < msgLen then none
  else some (u32be msgLen ++ msg)

/-- Outcome of one iteration of the per-connection read loop. -/
inductive ReadOutcome where
  | closed
  | skipped (rest : List Nat)
  | dispatched (text rest : List Nat)
  deriving DecidableEq

/-- One iteration of client.readInput (part_000 lines 31-90) acting on the
remaining inbound byte stream:
read 4 header bytes (fewer available = EOF/short read, loop returns and
the connection closes); decode them big-endian; length 0 is ignored and
the loop continues after the header; length above maxMessageSize closes
the connection before any body byte is read; otherwise read exactly that
many body bytes (short = closed), convert to text and TrimSpace it, and
dispatch the result to the server channel.  The dispatch is unconditional:
lines 79-90 contain no emptiness check on the trimmed text. -/
def readInputStep (s : List Nat) : ReadOutcome :=
  if s.length < 4 then ReadOutcome.closed
  else
    let msgLen := decodeHeader (s.take 4)
    let rest := s.drop 4
    if msgLen = 0 then ReadOutcome.skipped rest
    else if maxMessageSize < msgLen then ReadOutcome.closed
    else if rest.length < msgLen then ReadOutcome.closed
    else ReadOutcome.dispatched (trimSpace (rest.take msgLen)) (rest.drop msgLen)

/-- The whole readInput loop over a finite inbound stream: the list of
texts dispatched to the server channel before the connection closes. -/
def readInputLoop (s : List Nat) : List (List Nat) :=
  match h : readInputStep s with
  | ReadOutcome.closed => []
  | ReadOutcome.skipped rest => readInputLoop rest
  | ReadOutcome.dispatched text rest => text :: readInputLoop rest
  termination_by s.length
  decreasing_by
  · simp only [readInputStep] at h
    split at h
    · exact absurd h (by simp)
    · split at h
      · injection h with h2
        subst h2
        simp only [List.length_drop]
        omega
      · split at h
        · exact absurd h (by simp)
        · split at h
          · exact absurd h (by simp)
          · exact absurd h (by simp)
  · simp only [readInputStep] at h
    split at h
    · exact absurd h (by simp)
    · split at h
      · exact absurd h (by simp)
      · split at h
        · exact absurd h (by simp)
        · split at h
          · exact absurd h (by simp)
          · injection h with h2 h3
            subst h3
            simp only [List.length_drop]
            omega

/-- The receive path of readInput up to, but not including, the TrimSpace
of line 81: header read (lines 31-42), big-endian decode (lines 47-53),
length validation (lines 57-65), exact body read (lines 67-77) and the
identity conversion string(msgBuf) of line 80.  Returns the received text
and the unread remainder of the stream; `none` covers every branch that
ends the loop or skips the frame. -/
def decodeFrame (s : List Nat) : Option (List Nat × List Nat) :=
  if s.length < 4 then none
  else
    let msgLen := decodeHeader (s.take 4)
    let rest := s.drop 4
    if msgLen = 0 then none
    else if maxMessageSize < msgLen then none
    else if rest.length < msgLen then none
    else some (rest.take msgLen, rest.drop msgLen)

/-- The goroutines of the server process (part_000): the dispatcher
running server.run, the accept loop in main, and the per-connection
readInput readers. -/
inductive GoTask where
  | dispatcher
  | acceptLoop
  | connReader
  deriving DecidableEq

/-- Kinds of access to the s.members map. -/
inductive RegistryOp where
  | insert
  | delete
  | lookup
  | iterate
  deriving DecidableEq

/-- Every syntactic access to s.members in part_000, paired with the
goroutine that performs it:
- server.run line 150: s.members[addr] lookup, dispatcher goroutine;
- server.run line 152: delete(s.members, addr), dispatcher goroutine;
- server.broadcast line 176: range over s.members, reached from the
  dispatcher goroutine via run -> msg/broadcast (lines 147 and 151);
- main line 221: s.members[conn.RemoteAddr()] = c, accept-loop goroutine
  (main runs the accept loop itself; server.run was started with go);
- main line 223: s.broadcast(c, ...) ranges over s.members, accept-loop
  goroutine.
readInput never touches s.members (it only sends on channels). -/
def registryAccessSites : List (GoTask × RegistryOp) :=
  [ (GoTask.dispatcher, RegistryOp.lookup),
    (GoTask.dispatcher, RegistryOp.delete),
    (GoTask.dispatcher, RegistryOp.iterate),
    (GoTask.acceptLoop, RegistryOp.insert),
    (GoTask.acceptLoop, RegistryOp.iterate) ]

/-- A connected client as the dispatcher sees it: its display name and
its endpoint address (conn.RemoteAddr(), modelled as a Nat key). -/
structure GoClient where
  name : List Nat
  addr : Nat
  deriving DecidableEq

/-- What one invocation of client.msg does at a given peer: nothing for a
zero-length payload, nothing for an oversize payload, otherwise a
transport write that either fails (the error is only logged) or delivers
the framed bytes. -/
inductive SendOutcome where
  | skippedEmpty
  | tooLarge
  | writeErr
  | ok (frame : List Nat)
  deriving DecidableEq

/-- client.msg (part_000 lines 94-130) with the transport's behaviour made
explicit: writeFails says whether conn.Write returns an error for this
peer.  On error the method logs and returns; it never touches the
registry or the channels. -/
def clientMsgSend (writeFails : Bool) (msg : List Nat) : SendOutcome :=
  let msgLen := msg.length % 4294967296
  if msgLen = 0 then SendOutcome.skippedEmpty
  else if maxMessageSize < msgLen then SendOutcome.tooLarge
  else if writeFails then SendOutcome.writeErr
  else SendOutcome.ok (u32be msgLen ++ msg)

/-- server.broadcast (part_000 lines 173-186): range over the members map
(modelled as an association list), skip the entry whose key equals the
sender's remote address, and invoke m.msg(msg) on every other member.
fails gives each peer's transport behaviour; the returned list records
the attempted sends in iteration order. -/
def broadcastRun (members : List (Nat × GoClient)) (sender : GoClient)
    (msg : List Nat) (fails : Nat → Bool) : List (Nat × SendOutcome) :=
  members.filterMap fun p =>
    if p.1 = sender.addr then none
    else some (p.1, clientMsgSend (fails p.1) msg)

/-- The ASCII bytes of the separator in fmt.Sprintf with %s: %s. -/
def colonSpace : List Nat := [58, 32]

/-- The ASCII bytes of the string " left the room". -/
def leftRoomBytes : List Nat :=
  [32, 108, 101, 102, 116, 32, 116, 104, 101, 32, 114, 111, 111, 109]

/-- server.msg line 169: the display string built from the sender's name
and the chat text. -/
def displayString (name text : List Nat) : List Nat :=
  name ++ colonSpace ++ text

/-- The two event sources of server.run: an inbound chat message carrying
its sender, and a disconnect notification carrying a remote address. -/
inductive ServerEvent where
  | msg (sender : GoClient) (text : List Nat)
  | disconnect (addr : Nat)
  deriving DecidableEq

/-- The dispatcher-owned state: the members map, as an association list
from remote address to client. -/
structure ServerState where
  members : List (Nat × GoClient)
  deriving DecidableEq

/-- One iteration of server.run (part_000 lines 143-156), processing one
event.  Returns the new state, the sends attempted by the broadcast this
event triggered, and the events the processing itself emitted on the
server channels (the source emits none: client.msg only logs failures).
On a chat message (line 147): server.msg builds the display string and
broadcasts it excluding the sender; the members map is untouched.
On a disconnect (lines 148-153): if the address is a key of the map,
broadcast the departure notice excluding that client, then delete the
entry; otherwise do nothing. -/
def serverStep (st : ServerState) (ev : ServerEvent) (fails : Nat → Bool) :
    ServerState × List (Nat × SendOutcome) × List ServerEvent :=
  match ev with
  | ServerEvent.msg sender text =>
      (st, broadcastRun st.members sender (displayString sender.name text) fails, [])
  | ServerEvent.disconnect addr =>
      match st.members.lookup addr with
      | some c =>
          ({ members := st.members.filter fun p => p.1 != addr },
           broadcastRun st.members c (c.name ++ leftRoomBytes) fails, [])
      | none => (st, [], [])

/-- The ASCII bytes of the name "user1234", one possible value of the
fmt.Sprintf name in server.newClient line 161. -/
def userName1234 : List Nat := [117, 115, 101, 114, 49, 50, 51, 52]

/-- A chat text of exactly maxMessageSize bytes: 4096 copies of letter a
(byte 97). -/
def bigChatText : List Nat := List.replicate 4096 97

/-- Sample member: name "user1" at address 1. -/
def userA : GoClient := { name := [117, 115, 101, 114, 49], addr := 1 }

/-- Sample member: name "user2" at address 2. -/
def userB : GoClient := { name := [117, 115, 101, 114, 50], addr := 2 }

/-- A sample members map holding userA and userB. -/
def sampleMembers : List (Nat × GoClient) := [(1, userA), (2, userB)]

theorem maxMessageSize_eq : maxMessageSize = 4096 := rfl

theorem u32be_length (n : Nat) : (u32be n).length = 4 := rfl

theorem decodeHeader_u32be {n : Nat} (h : n < 4294967296) :
    decodeHeader (u32be n) = n := by
  simp only [decodeHeader, u32be, List.foldl]
  omega

theorem readInputLoop_skipped {s rest : List Nat}
    (h : readInputStep s = ReadOutcome.skipped rest) :
    readInputLoop s = readInputLoop rest := by
  rw [readInputLoop.eq_def]
  split <;> simp_all

theorem readInputStep_frame (body rest : List Nat) (h1 : 0 < body.length)
    (h2 : body.length ≤ maxMessageSize) :
    readInputStep (u32be body.length ++ body ++ rest)
      = ReadOutcome.dispatched (trimSpace body) rest := by
  have hlt : body.length < 4294967296 := by
    rw [maxMessageSize_eq] at h2; omega
  rw [List.append_assoc]
  simp only [readInputStep, List.take_left' (u32be_length body.length),
    List.drop_left' (u32be_length body.length), decodeHeader_u32be hlt]
  rw [if_neg (by simp [u32be]), if_neg (by omega), if_neg (Nat.not_lt.mpr h2),
    if_neg (by simp), List.take_left, List.drop_left]

theorem decodeFrame_frame (body rest : List Nat) (h1 : 0 < body.length)
    (h2 : body.length ≤ maxMessageSize) :
    decodeFrame (u32be body.length ++ body ++ rest) = some (body, rest) := by
  have hlt : body.length < 4294967296 := by
    rw [maxMessageSize_eq] at h2; omega
  rw [List.append_assoc]
  simp only [decodeFrame, List.take_left' (u32be_length body.length),
    List.drop_left' (u32be_length body.length), decodeHeader_u32be hlt]
  rw [if_neg (by simp [u32be]), if_neg (by omega), if_neg (Nat.not_lt.mpr h2),
    if_neg (by simp), List.take_left, List.drop_left]

theorem clientMsg_eq_some {t : List Nat} (h1 : 0 < t.length)
    (h2 : t.length ≤ maxMessageSize) :
    clientMsg t = some (u32be t.length ++ t) := by
  have hlt : t.length < 4294967296 := by
    rw [maxMessageSize_eq] at h2; omega
  have hm : t.length % 4294967296 = t.length := Nat.mod_eq_of_lt hlt
  simp only [clientMsg, hm]
  rw [if_neg (by omega), if_neg (Nat.not_lt.mpr h2)]

theorem broadcastRun_map_fst (members : List (Nat × GoClient)) (sender : GoClient)
    (msg : List Nat) (fails : Nat → Bool) :
    (broadcastRun members sender msg fails).map Prod.fst
      = (members.map Prod.fst).filter fun a => a != sender.addr := by
  induction members with
  | nil => rfl
  | cons p tl ih =>
      simp only [broadcastRun] at ih ⊢
      by_cases hp : p.1 = sender.addr
      · simpa [List.filterMap_cons, List.filter_cons, hp] using ih
      · simpa [List.filterMap_cons, List.filter_cons, hp] using ih

theorem lookup_filter_self (members : List (Nat × GoClient)) (addr : Nat) :
    (members.filter fun p => p.1 != addr).lookup addr = none := by
  induction members with
  | nil => rfl
  | cons p tl ih =>
      obtain ⟨k, v⟩ := p
      by_cases hk : k = addr
      · simpa [List.filter_cons, hk] using ih
      · have hk2 : (addr == k) = false := beq_eq_false_iff_ne.mpr (Ne.symm hk)
        simp [List.filter_cons, hk, List.lookup, hk2, ih]

theorem broadcastRun_all_tooLarge (members : List (Nat × GoClient)) (sender : GoClient)
    (msg : List Nat) (fails : Nat → Bool)
    (h : ∀ wf : Bool, clientMsgSend wf msg = SendOutcome.tooLarge) :
    broadcastRun members sender msg fails
      = members.filterMap fun q =>
          if q.1 = sender.addr then none else some (q.1, SendOutcome.tooLarge) := by
  induction members with
  | nil => rfl
  | cons p tl ih =>
      simp only [broadcastRun] at ih ⊢
      by_cases hp : p.1 = sender.addr
      · simpa [List.filterMap_cons, hp] using ih
      · simpa [List.filterMap_cons, hp, h] using ih

theorem dropWhile_isSpace_replicate97 (n : Nat) :
    List.dropWhile isSpaceByte (List.replicate n 97) = List.replicate n 97 := by
  cases n with
  | zero => rfl
  | succ k => simp [List.replicate_succ, List.dropWhile_cons, isSpaceByte]

theorem trimSpace_bigChatText : trimSpace bigChatText = bigChatText := by
  simp only [trimSpace, bigChatText, dropWhile_isSpace_replicate97,
    List.reverse_replicate]

theorem bigChatText_length : bigChatText.length = 4096 := by
  simp only [bigChatText, List.length_replicate]

theorem display_user1234_length :
    (displayString userName1234 bigChatText).length = 4106 := by
  simp only [displayString, userName1234, colonSpace, bigChatText, List.length_append,
    List.length_replicate, List.length_cons, List.length_nil]

theorem clientMsgSend_display_tooLarge (wf : Bool) :
    clientMsgSend wf (displayString userName1234 bigChatText) = SendOutcome.tooLarge := by
  simp only [clientMsgSend, display_user1234_length]
  rfl

theorem clientMsg_display_none :
    clientMsg (displayString userName1234 bigChatText) = none := by
  simp only [clientMsg, display_user1234_length]
  rfl

/-- Claim C1: for every text t with 0 < byte-length(t) ≤ 4096, encoding t
with client.msg produces the frame u32be(length) ++ t, and the receive
path — 4-byte big-endian header read, exact body read of that many
bytes, conversion to text — applied to that frame followed by any
further stream bytes yields t again, with the further bytes untouched. -/
theorem c1_encode_decode_roundtrip (t rest : List Nat) (h1 : 0 < t.length)
    (h2 : t.length ≤ maxMessageSize) :
    clientMsg t = some (u32be t.length ++ t) ∧
    decodeFrame (u32be t.length ++ t ++ rest) = some (t, rest) :=
  ⟨clientMsg_eq_some h1 h2, decodeFrame_frame t rest h1 h2⟩

/-- Witness for c1_encode_decode_roundtrip at the two-byte text hi with
one trailing stream byte. -/
theorem c1_witness :
    clientMsg [104, 105] = some (u32be (List.length [104, 105]) ++ [104, 105]) ∧
    decodeFrame (u32be (List.length [104, 105]) ++ [104, 105] ++ [7])
      = some ([104, 105], [7]) :=
  c1_encode_decode_roundtrip [104, 105] [7] (by decide) (by decide)

/-- Claim C2 counterexample: the frame 00 00 00 01 20 carries one body
byte, a space, which trims to the empty text; readInput nevertheless
dispatches a ChatEvent carrying that empty text instead of discarding
the message — part_000 lines 79-90 send to the server channel with no
emptiness check. -/
theorem c2_counterexample :
    readInputStep [0, 0, 0, 1, 32] = ReadOutcome.dispatched [] [] := by decide

/-- Claim C2 as amended: in the Dispatching step the server's reader
converts the body bytes to text, trims surrounding whitespace, and
always emits the ChatEvent with the trimmed text — also when that text
is empty.  (The empty-after-trim discard exists only in the interactive
client's readFromServer, client.go lines 125-129, which feeds no
dispatcher.) -/
theorem c2_trimmed_text_always_dispatched (body rest : List Nat)
    (h1 : 0 < body.length) (h2 : body.length ≤ maxMessageSize) :
    readInputStep (u32be body.length ++ body ++ rest)
      = ReadOutcome.dispatched (trimSpace body) rest :=
  readInputStep_frame body rest h1 h2

/-- Witness for c2_trimmed_text_always_dispatched at the body made of a
single space byte: the dispatched text is empty. -/
theorem c2_witness :
    readInputStep (u32be (List.length [32]) ++ [32] ++ [])
      = ReadOutcome.dispatched (trimSpace [32]) [] :=
  c2_trimmed_text_always_dispatched [32] [] (by decide) (by decide)

/-- Claim C3 is violated by the source: the accept loop in main — a
goroutine distinct from the dispatcher started with go s.run() — inserts
into s.members at line 221 and iterates it through s.broadcast at line
223, so the Registry is not read and mutated only from within the
Dispatcher's control loop. -/
theorem c3_registry_access_outside_dispatcher :
    (GoTask.acceptLoop, RegistryOp.insert) ∈ registryAccessSites ∧
    ¬ ∀ site ∈ registryAccessSites, site.1 = GoTask.dispatcher := by decide

/-- Claim C4 counterexample: the one-byte text made of a single space is
empty after trimming, yet client.msg produces and writes the frame
00 00 00 01 20 — the zero check of part_000 line 98 runs on the raw byte
count and no trimming is applied. -/
theorem c4_counterexample :
    trimSpace [32] = [] ∧ clientMsg [32] = some [0, 0, 0, 1, 32] := by decide

/-- Claim C4 as amended: client.msg produces no frame when the payload
byte count is zero (without any trimming, so whitespace-only text is
framed and sent), produces no frame when the byte count exceeds
maxMessageSize, and otherwise produces the 4-byte big-endian length
followed by exactly the raw payload bytes. -/
theorem c4_encode_cases (msg : List Nat) :
    (msg.length = 0 → clientMsg msg = none) ∧
    (maxMessageSize < msg.length → msg.length < 4294967296 → clientMsg msg = none) ∧
    (0 < msg.length → msg.length ≤ maxMessageSize →
      clientMsg msg = some (u32be msg.length ++ msg)) := by
  refine ⟨?_, ?_, fun h1 h2 => clientMsg_eq_some h1 h2⟩
  · intro h
    simp [clientMsg, h]
  · intro h hlt
    have hm : msg.length % 4294967296 = msg.length := Nat.mod_eq_of_lt hlt
    rw [maxMessageSize_eq] at h
    simp only [clientMsg, hm]
    rw [if_neg (by omega), if_pos (by rw [maxMessageSize_eq]; exact h)]

/-- Witness for c4_encode_cases: the empty text gives no frame; the
single space byte gives a real frame. -/
theorem c4_witness :
    clientMsg [] = none ∧
    clientMsg [32] = some (u32be (List.length [32]) ++ [32]) :=
  ⟨(c4_encode_cases []).1 rfl, (c4_encode_cases [32]).2.2 (by decide) (by decide)⟩

/-- Claim C5: server.broadcast attempts a framed write to exactly the
registered peers whose endpoint address differs from the sender's, and
never to the sender itself, whatever the membership, the message and the
per-peer transport behaviour. -/
theorem c5_broadcast_excludes_exactly_sender (members : List (Nat × GoClient))
    (sender : GoClient) (msg : List Nat) (fails : Nat → Bool) (a : Nat) :
    a ∈ (broadcastRun members sender msg fails).map Prod.fst ↔
      a ∈ members.map Prod.fst ∧ a ≠ sender.addr := by
  rw [broadcastRun_map_fst]
  simp [List.mem_filter]

/-- Claim C6: a frame whose 4-byte header decodes above maxMessageSize
makes readInput close the connection; the outcome is closed for every
continuation of the stream after the header, so no body byte is read. -/
theorem c6_oversize_header_closes (b0 b1 b2 b3 : Nat) (rest : List Nat)
    (h : maxMessageSize < decodeHeader [b0, b1, b2, b3]) :
    readInputStep ([b0, b1, b2, b3] ++ rest) = ReadOutcome.closed := by
  have h0 : ¬ decodeHeader [b0, b1, b2, b3] = 0 := by
    rw [maxMessageSize_eq] at h; omega
  have h4 : ([b0, b1, b2, b3] : List Nat).length = 4 := rfl
  simp only [readInputStep, List.take_left' h4, List.drop_left' h4]
  rw [if_neg (by simp only [List.length_append, List.length_cons, List.length_nil]; omega),
    if_neg h0, if_pos h]

/-- Witness for c6_oversize_header_closes with header value 5000 and a
stream holding only 3 further bytes: the connection closes without any
body read. -/
theorem c6_witness :
    readInputStep ([0, 0, 19, 136] ++ [1, 2, 3]) = ReadOutcome.closed :=
  c6_oversize_header_closes 0 0 19 136 [1, 2, 3] (by decide)

/-- Claim C7: a frame whose header decodes to 0 is consumed without any
body read: the step outcome is skipped with exactly the bytes after the
header remaining, and the whole read loop behaves as if the stream had
started right after the header, reading those bytes as a fresh header. -/
theorem c7_zero_header_resyncs (b0 b1 b2 b3 : Nat) (rest : List Nat)
    (h : decodeHeader [b0, b1, b2, b3] = 0) :
    readInputStep ([b0, b1, b2, b3] ++ rest) = ReadOutcome.skipped rest ∧
    readInputLoop ([b0, b1, b2, b3] ++ rest) = readInputLoop rest := by
  have h4 : ([b0, b1, b2, b3] : List Nat).length = 4 := rfl
  have hstep : readInputStep ([b0, b1, b2, b3] ++ rest) = ReadOutcome.skipped rest := by
    simp only [readInputStep, List.take_left' h4, List.drop_left' h4]
    rw [if_neg (by simp only [List.length_append, List.length_cons, List.length_nil]; omega),
      if_pos h]
  exact ⟨hstep, readInputLoop_skipped hstep⟩

/-- Witness for c7_zero_header_resyncs at the all-zero header followed by
three bytes. -/
theorem c7_witness :
    readInputStep ([0, 0, 0, 0] ++ [9, 9, 9]) = ReadOutcome.skipped [9, 9, 9] ∧
    readInputLoop ([0, 0, 0, 0] ++ [9, 9, 9]) = readInputLoop [9, 9, 9] :=
  c7_zero_header_resyncs 0 0 0 0 [9, 9, 9] (by decide)

/-- Claim C8: processing a DisconnectEvent whose address is a key of the
members map removes exactly that entry, and the departure notice
"<identity> left the room" is broadcast with the removed peer excluded —
a send is attempted to every remaining key; processing the same event
again afterwards, or any DisconnectEvent whose address is absent, leaves
the state unchanged and broadcasts nothing. -/
theorem c8_disconnect_removes_then_notifies :
    (∀ (members : List (Nat × GoClient)) (addr : Nat) (fails : Nat → Bool) (c : GoClient),
      members.lookup addr = some c → c.addr = addr →
      serverStep ⟨members⟩ (ServerEvent.disconnect addr) fails
          = (⟨members.filter fun p => p.1 != addr⟩,
             broadcastRun members c (c.name ++ leftRoomBytes) fails, [])
        ∧ (broadcastRun members c (c.name ++ leftRoomBytes) fails).map Prod.fst
            = (members.map Prod.fst).filter (fun a => a != addr)
        ∧ serverStep ⟨members.filter fun p => p.1 != addr⟩
            (ServerEvent.disconnect addr) fails
            = (⟨members.filter fun p => p.1 != addr⟩, [], [])) ∧
    (∀ (members : List (Nat × GoClient)) (addr : Nat) (fails : Nat → Bool),
      members.lookup addr = none →
      serverStep ⟨members⟩ (ServerEvent.disconnect addr) fails = (⟨members⟩, [], [])) := by
  constructor
  · intro members addr fails c hl hc
    refine ⟨?_, ?_, ?_⟩
    · simp [serverStep, hl]
    · rw [broadcastRun_map_fst, hc]
    · simp [serverStep, lookup_filter_self]
  · intro members addr fails hl
    simp [serverStep, hl]

/-- Witness for c8_disconnect_removes_then_notifies: disconnecting
address 1 from the sample map removes userA and notifies the rest; a
disconnect of the absent address 5 is a no-op. -/
theorem c8_witness :
    (serverStep ⟨sampleMembers⟩ (ServerEvent.disconnect 1) (fun _ => false)
          = (⟨sampleMembers.filter fun p => p.1 != 1⟩,
             broadcastRun sampleMembers userA (userA.name ++ leftRoomBytes)
               (fun _ => false), [])
        ∧ (broadcastRun sampleMembers userA (userA.name ++ leftRoomBytes)
             (fun _ => false)).map Prod.fst
            = (sampleMembers.map Prod.fst).filter (fun a => a != 1)
        ∧ serverStep ⟨sampleMembers.filter fun p => p.1 != 1⟩
            (ServerEvent.disconnect 1) (fun _ => false)
            = (⟨sampleMembers.filter fun p => p.1 != 1⟩, [], [])) ∧
    serverStep ⟨sampleMembers⟩ (ServerEvent.disconnect 5) (fun _ => false)
      = (⟨sampleMembers⟩, [], []) :=
  ⟨c8_disconnect_removes_then_notifies.1 sampleMembers 1 (fun _ => false) userA
      (by decide) rfl,
   c8_disconnect_removes_then_notifies.2 sampleMembers 5 (fun _ => false) (by decide)⟩

/-- Claim C9: during one chat broadcast, the set of attempted peers does
not depend on which transport writes fail — a failing peer never aborts
the writes to the rest — every non-sender key is attempted, and
processing the chat event leaves the members map unchanged and emits no
event (in particular no DisconnectEvent) on the server channels. -/
theorem c9_per_peer_failure_isolated (members : List (Nat × GoClient))
    (sender : GoClient) (text : List Nat) (fails fails' : Nat → Bool) :
    (broadcastRun members sender (displayString sender.name text) fails).map Prod.fst
        = (members.map Prod.fst).filter (fun a => a != sender.addr) ∧
    (broadcastRun members sender (displayString sender.name text) fails).map Prod.fst
        = (broadcastRun members sender (displayString sender.name text) fails').map Prod.fst ∧
    serverStep ⟨members⟩ (ServerEvent.msg sender text) fails
        = (⟨members⟩, broadcastRun members sender (displayString sender.name text) fails, []) :=
  ⟨broadcastRun_map_fst members sender (displayString sender.name text) fails,
   by rw [broadcastRun_map_fst, broadcastRun_map_fst],
   rfl⟩

/-- Claim C10: bigChatText — 4096 bytes, already trimmed, within the
limit — is a valid inbound chat message accepted by the receive path;
yet with sender identity user1234 the display string built by the
dispatcher has 4106 bytes, so client.msg rejects it for every recipient:
every send the broadcast attempts ends in the tooLarge rejection and the
message is delivered to no peer at all. -/
theorem c10_oversize_display_not_delivered (members : List (Nat × GoClient))
    (sender : GoClient) (fails : Nat → Bool) (hname : sender.name = userName1234) :
    (0 < bigChatText.length ∧ bigChatText.length ≤ maxMessageSize ∧
      trimSpace bigChatText = bigChatText) ∧
    readInputStep (u32be bigChatText.length ++ bigChatText)
      = ReadOutcome.dispatched bigChatText [] ∧
    maxMessageSize < (displayString userName1234 bigChatText).length ∧
    clientMsg (displayString userName1234 bigChatText) = none ∧
    (serverStep ⟨members⟩ (ServerEvent.msg sender bigChatText) fails).2.1
      = members.filterMap fun q =>
          if q.1 = sender.addr then none else some (q.1, SendOutcome.tooLarge) := by
  have hpos : 0 < bigChatText.length := by rw [bigChatText_length]; decide
  have hle : bigChatText.length ≤ maxMessageSize := by rw [bigChatText_length]; decide
  refine ⟨⟨hpos, hle, trimSpace_bigChatText⟩, ?_, ?_, clientMsg_display_none, ?_⟩
  · have hstep := readInputStep_frame bigChatText [] hpos hle
    rwa [List.append_nil, trimSpace_bigChatText] at hstep
  · rw [display_user1234_length, maxMessageSize_eq]
    omega
  · have hred : (serverStep ⟨members⟩ (ServerEvent.msg sender bigChatText) fails).2.1
        = broadcastRun members sender (displayString sender.name bigChatText) fails := rfl
    rw [hred, hname]
    exact broadcastRun_all_tooLarge members sender _ fails clientMsgSend_display_tooLarge

/-- Witness for c10_oversize_display_not_delivered: sender user1234 at
address 1 broadcasting to the sample map reaches only the other address,
and that attempted send is rejected as too large. -/
theorem c10_witness :
    (0 < bigChatText.length ∧ bigChatText.length ≤ maxMessageSize ∧
      trimSpace bigChatText = bigChatText) ∧
    readInputStep (u32be bigChatText.length ++ bigChatText)
      = ReadOutcome.dispatched bigChatText [] ∧
    maxMessageSize < (displayString userName1234 bigChatText).length ∧
    clientMsg (displayString userName1234 bigChatText) = none ∧
    (serverStep ⟨sampleMembers⟩
        (ServerEvent.msg ⟨userName1234, 1⟩ bigChatText) (fun _ => false)).2.1
      = sampleMembers.filterMap fun q =>
          if q.1 = (⟨userName1234, 1⟩ : GoClient).addr then none
          else some (q.1, SendOutcome.tooLarge) :=
  c10_oversize_display_not_delivered sampleMembers ⟨userName1234, 1⟩ (fun _ => false) rfl

end GoChat
